import Mathlib

/-!
Verification development for the Chorus Inter-Session Intelligence Hub
(`src-tauri/src/core/intel_hub.rs`) and the Web Access Server
(`src-tauri/src/core/web_access_server.rs`).

The Rust code is shallowly embedded: each Rust function becomes a Lean
function over explicit state.  Machine integers (`u32`, `usize`, `i64`)
are modelled as `Nat`/`Int` (the code performs no overflowing
arithmetic).  Clock values (`chrono::Utc::now()`, `std::time::Instant`)
are passed in as explicit parameters measured in whole seconds, matching
the code's use of `num_seconds` comparisons.  RFC 3339 timestamp strings
are kept abstract: the embedding is parameterised by the partial parsing
function `parse : String → Option Int` standing for
`chrono::DateTime::parse_from_rfc3339` composed with conversion to UTC
seconds (`None` models a parse error).  Fresh UUIDs and formatted
timestamps are nondeterministic inputs and are likewise passed in.
-/

/-- Opaque stand-in for `serde_json::Value`; the Hub and the Access
Server never inspect payloads, they only move them around. -/
structure JsonValue where
  raw : String
deriving DecidableEq, Repr

/-- Maximum number of broadcast messages to keep in memory. -/
def MAX_MESSAGES : Nat := 200

/-- Maximum number of scratchpad entries. -/
def MAX_SCRATCHPAD : Nat := 50

/-- File activity entries older than this are pruned on each report. -/
def FILE_ACTIVITY_TTL_SECS : Int := 300

/-- Maximum size (bytes) for a broadcast message body. -/
def MAX_MESSAGE_LEN : Nat := 10000

/-- Maximum size (bytes) for a scratchpad title. -/
def MAX_TITLE_LEN : Nat := 256

/-- Maximum size (bytes) for scratchpad content. -/
def MAX_CONTENT_LEN : Nat := 100000

/-- Maximum size (bytes) for a file path. -/
def MAX_FILE_PATH_LEN : Nat := 4096

/-- Valid broadcast categories. -/
def BROADCAST_CATEGORIES : List String := ["discovery", "warning", "knowledge", "info"]

/-- Valid scratchpad categories. -/
def SCRATCHPAD_CATEGORIES : List String := ["architecture", "api", "decision", "note"]

/-- Valid file activity actions. -/
def FILE_ACTIONS : List String := ["editing", "created", "deleted"]

/-- A broadcast message sent from one session to all others. -/
structure BroadcastMessage where
  id : String
  session_id : Nat
  instance_id : String
  category : String
  message : String
  metadata : Option JsonValue
  timestamp : String
deriving DecidableEq, Repr

/-- Tracks a session's file modification activity. -/
structure FileActivity where
  session_id : Nat
  file_path : String
  action : String
  timestamp : String
deriving DecidableEq, Repr

/-- A file conflict detected between sessions. -/
structure FileConflict where
  file_path : String
  sessions : List Nat
  actions : List FileActivity
deriving DecidableEq, Repr

/-- A shared scratchpad entry visible to all sessions. -/
structure ScratchpadEntry where
  id : String
  session_id : Nat
  category : String
  title : String
  content : String
  timestamp : String
deriving DecidableEq, Repr

/-- Request payload for `add_broadcast`. -/
structure BroadcastRequest where
  session_id : Nat
  instance_id : String
  category : String
  message : String
  metadata : Option JsonValue
deriving DecidableEq, Repr

/-- Request payload for `report_file`. -/
structure FileActivityRequest where
  session_id : Nat
  instance_id : String
  file_path : String
  action : String
deriving DecidableEq, Repr

/-- Request payload for `write_scratchpad`. -/
structure ScratchpadWriteRequest where
  session_id : Nat
  instance_id : String
  category : String
  title : String
  content : String
deriving DecidableEq, Repr

/-- Validation error returned when input constraints are violated. -/
structure IntelValidationError where
  field : String
  message : String
deriving DecidableEq, Repr

/-- State of the central hub: the three stores behind the `RwLock`s of
the Rust `IntelHub` struct (`messages`, `file_activities`,
`scratchpad`).  The `HashMap<String, Vec<FileActivity>>` is modelled as
an association list with unique keys. -/
structure IntelHub where
  messages : List BroadcastMessage
  file_activities : List (String × List FileActivity)
  scratchpad : List ScratchpadEntry
deriving DecidableEq, Repr

/-- Fresh hub as produced by `IntelHub::new`. -/
def IntelHub.new : IntelHub := { messages := [], file_activities := [], scratchpad := [] }

/-- Does the character list start with the given pattern?  Building
block for the embedding of Rust's `str::contains`. -/
def startsWithSeq : List Char → List Char → Bool
  | _, [] => true
  | [], _ :: _ => false
  | a :: s, b :: p => a == b && startsWithSeq s p

/-- Embedding of Rust's `str::contains` for a nonempty literal pattern:
true iff `pat` occurs as a contiguous substring of `s`. -/
def containsSeq (s : String) (pat : List Char) : Bool :=
  go s.data
where
  go : List Char → Bool
    | [] => pat.isEmpty
    | c :: rest => startsWithSeq (c :: rest) pat || go rest

/-- Embedding of Rust's `str::len`: the UTF-8 byte length. -/
def byteLen (s : String) : Nat := s.utf8ByteSize

/-- Validate a broadcast request (`IntelHub::validate_broadcast`). -/
def validate_broadcast (req : BroadcastRequest) : Except IntelValidationError Unit :=
  if !(BROADCAST_CATEGORIES.contains req.category) then
    .error { field := "category",
             message := "must be one of [\"discovery\", \"warning\", \"knowledge\", \"info\"]" }
  else if byteLen req.message > MAX_MESSAGE_LEN then
    .error { field := "message", message := "exceeds max length of 10000 bytes" }
  else
    .ok ()

/-- Validate a file activity request (`IntelHub::validate_file_activity`). -/
def validate_file_activity (req : FileActivityRequest) : Except IntelValidationError Unit :=
  if !(FILE_ACTIONS.contains req.action) then
    .error { field := "action",
             message := "must be one of [\"editing\", \"created\", \"deleted\"]" }
  else if byteLen req.file_path > MAX_FILE_PATH_LEN then
    .error { field := "file_path", message := "exceeds max length of 4096 bytes" }
  else if containsSeq req.file_path ['.', '.'] then
    .error { field := "file_path", message := "path traversal not allowed" }
  else
    .ok ()

/-- Validate a scratchpad write request (`IntelHub::validate_scratchpad`). -/
def validate_scratchpad (req : ScratchpadWriteRequest) : Except IntelValidationError Unit :=
  if !(SCRATCHPAD_CATEGORIES.contains req.category) then
    .error { field := "category",
             message := "must be one of [\"architecture\", \"api\", \"decision\", \"note\"]" }
  else if byteLen req.title > MAX_TITLE_LEN then
    .error { field := "title", message := "exceeds max length of 256 bytes" }
  else if byteLen req.content > MAX_CONTENT_LEN then
    .error { field := "content", message := "exceeds max length of 100000 bytes" }
  else
    .ok ()

/-- Bounded append used by both ring buffers: push, then drop the
oldest excess entries if the bound is exceeded (the
`messages.push(..); if messages.len() > MAX { messages.drain(..excess) }`
pattern of `add_broadcast` and `write_scratchpad`). -/
def ring_append {α : Type} (max : Nat) (l : List α) (a : α) : List α :=
  let pushed := l ++ [a]
  if pushed.length > max then pushed.drop (pushed.length - max) else pushed

/-- Embedding of `IntelHub::add_broadcast`.  `fresh_id` stands for the
generated UUID v4 and `ts` for `chrono::Utc::now().to_rfc3339()`.
Returns the Rust `Result` together with the hub state after the call. -/
def add_broadcast (fresh_id ts : String) (hub : IntelHub) (req : BroadcastRequest) :
    Except IntelValidationError BroadcastMessage × IntelHub :=
  match validate_broadcast req with
  | .error e => (.error e, hub)
  | .ok _ =>
    let msg : BroadcastMessage :=
      { id := fresh_id, session_id := req.session_id, instance_id := req.instance_id,
        category := req.category, message := req.message, metadata := req.metadata,
        timestamp := ts }
    (.ok msg, { hub with messages := ring_append MAX_MESSAGES hub.messages msg })

/-- Embedding of `IntelHub::get_messages_for`: read-only snapshot of the
message store excluding the caller's own messages (the source takes only
a read lock, so no hub state is returned). -/
def get_messages_for (hub : IntelHub) (session_id : Nat) : List BroadcastMessage :=
  hub.messages.filter (fun m => m.session_id != session_id)

/-- Embedding of `IntelHub::get_all_messages` (read-only). -/
def get_all_messages (hub : IntelHub) : List BroadcastMessage :=
  hub.messages

/-- Lookup in the activity map (`HashMap::get`). -/
def mapGet (m : List (String × List FileActivity)) (k : String) :
    Option (List FileActivity) :=
  (m.find? (fun p => p.1 == k)).map (fun p => p.2)

/-- Update the value at an existing key (`HashMap::get_mut`); a missing
key leaves the map unchanged. -/
def mapModify (m : List (String × List FileActivity)) (k : String)
    (f : List FileActivity → List FileActivity) : List (String × List FileActivity) :=
  m.map (fun p => if p.1 == k then (p.1, f p.2) else p)

/-- Push an activity under a key, inserting an empty entry first when
the key is absent (`activities.entry(k).or_default().push(a)`). -/
def mapPush (m : List (String × List FileActivity)) (k : String) (a : FileActivity) :
    List (String × List FileActivity) :=
  if (m.find? (fun p => p.1 == k)).isSome then
    mapModify m k (fun es => es ++ [a])
  else
    m ++ [(k, [a])]

/-- The retention predicate of `prune_old_entries` and of the filter in
`get_all_conflicts`: keep an entry iff its timestamp parses to a moment
less than `FILE_ACTIVITY_TTL_SECS` seconds before `now`, and always keep
entries whose timestamp does not parse (logged, not dropped). -/
def keepEntry (parse : String → Option Int) (now : Int) (e : FileActivity) : Bool :=
  match parse e.timestamp with
  | some ts => now - ts < FILE_ACTIVITY_TTL_SECS
  | none => true

/-- Embedding of `IntelHub::prune_old_entries`: prune the activity list
of one file path with `Vec::retain`. -/
def prune_old_entries (parse : String → Option Int)
    (activities : List (String × List FileActivity)) (file_path : String) (now : Int) :
    List (String × List FileActivity) :=
  mapModify activities file_path (fun es => es.filter (keepEntry parse now))

/-- Remove consecutive duplicate elements (`Vec::dedup`). -/
def dedupAdjacent : List Nat → List Nat
  | [] => []
  | [a] => [a]
  | a :: b :: rest =>
    if a = b then dedupAdjacent (b :: rest) else a :: dedupAdjacent (b :: rest)

/-- Embedding of `IntelHub::detect_conflict`: collect session ids,
sort ascending (`Vec::sort` is a stable ascending sort, modelled here by
the stable `List.insertionSort`), deduplicate consecutive duplicates
(`Vec::dedup`), and report a conflict iff more than one session id
remains. -/
def detect_conflict (file_path : String) (entries : List FileActivity) :
    Option FileConflict :=
  let session_ids := (entries.map (fun e => e.session_id)).insertionSort (· ≤ ·)
  let session_ids := dedupAdjacent session_ids
  if session_ids.length > 1 then
    some { file_path := file_path, sessions := session_ids, actions := entries }
  else
    none

/-- Embedding of `IntelHub::report_file`.  `now` is the clock reading
used for pruning and `nowStr` the formatted timestamp stored with the
new activity (both are `chrono::Utc::now()` in the source).  Returns the
Rust `Result` together with the hub state after the call. -/
def report_file (parse : String → Option Int) (now : Int) (nowStr : String)
    (hub : IntelHub) (req : FileActivityRequest) :
    Except IntelValidationError (List FileConflict) × IntelHub :=
  match validate_file_activity req with
  | .error e => (.error e, hub)
  | .ok _ =>
    let activity : FileActivity :=
      { session_id := req.session_id, file_path := req.file_path,
        action := req.action, timestamp := nowStr }
    let activities := prune_old_entries parse hub.file_activities req.file_path now
    let activities := mapPush activities req.file_path activity
    let conflicts :=
      match mapGet activities req.file_path with
      | some entries => (detect_conflict req.file_path entries).toList
      | none => []
    (.ok conflicts, { hub with file_activities := activities })

/-- Embedding of `IntelHub::get_all_conflicts`: sweep every tracked
path, filter to recent (or unparseable-timestamp) entries, and collect
the detected conflicts.  The source takes only a read lock. -/
def get_all_conflicts (parse : String → Option Int) (now : Int) (hub : IntelHub) :
    List FileConflict :=
  hub.file_activities.filterMap
    (fun p => detect_conflict p.1 (p.2.filter (keepEntry parse now)))

/-- Paired form of `get_all_conflicts` exposing the hub state after the
call: the source method takes `&self` and only a read lock on
`file_activities`, so the stores are returned unchanged. -/
def get_all_conflicts_run (parse : String → Option Int) (now : Int) (hub : IntelHub) :
    List FileConflict × IntelHub :=
  (get_all_conflicts parse now hub, hub)

/-- Embedding of `IntelHub::write_scratchpad`.  `fresh_id` stands for
the generated UUID v4 and `ts` for the formatted current time. -/
def write_scratchpad (fresh_id ts : String) (hub : IntelHub)
    (req : ScratchpadWriteRequest) :
    Except IntelValidationError ScratchpadEntry × IntelHub :=
  match validate_scratchpad req with
  | .error e => (.error e, hub)
  | .ok _ =>
    let entry : ScratchpadEntry :=
      { id := fresh_id, session_id := req.session_id, category := req.category,
        title := req.title, content := req.content, timestamp := ts }
    (.ok entry, { hub with scratchpad := ring_append MAX_SCRATCHPAD hub.scratchpad entry })

/-- Embedding of `IntelHub::read_scratchpad` (read-only). -/
def read_scratchpad (hub : IntelHub) : List ScratchpadEntry :=
  hub.scratchpad

/-- Embedding of `IntelHub::clear_scratchpad`. -/
def clear_scratchpad (hub : IntelHub) : IntelHub :=
  { hub with scratchpad := [] }

/-- One step of a call sequence against `add_broadcast`: an input triple
(fresh UUID, timestamp string, request). -/
def run_broadcasts (inputs : List (String × String × BroadcastRequest))
    (hub : IntelHub) : IntelHub :=
  inputs.foldl (fun h i => (add_broadcast i.1 i.2.1 h i.2.2).2) hub

/-- Run a sequence of `write_scratchpad` calls. -/
def run_scratchpads (inputs : List (String × String × ScratchpadWriteRequest))
    (hub : IntelHub) : IntelHub :=
  inputs.foldl (fun h i => (write_scratchpad i.1 i.2.1 h i.2.2).2) hub

/-- The broadcast message that a successful `add_broadcast` call on an
input triple appends to the store. -/
def mkBroadcastMsg (i : String × String × BroadcastRequest) : BroadcastMessage :=
  { id := i.1, session_id := i.2.2.session_id, instance_id := i.2.2.instance_id,
    category := i.2.2.category, message := i.2.2.message, metadata := i.2.2.metadata,
    timestamp := i.2.1 }

/-- Token info with expiry tracking (`TokenInfo` in
`web_access_server.rs`); `expires_at` is an `Instant` in seconds. -/
structure TokenInfo where
  token : String
  expires_at : Int
deriving DecidableEq, Repr

/-- Embedding of `WebAccessServer::generate_token`.  `fresh` stands for
the generated UUID v4 and `now` for `Instant::now()`.  Returns the
issued token with its validity window (the URL part is derived from the
network environment and carries no protocol state) and the new token
slot, which unconditionally overwrites the previous one. -/
def generate_token (fresh : String) (now : Int) (_st : Option TokenInfo) :
    (String × Int) × Option TokenInfo :=
  ((fresh, 300), some { token := fresh, expires_at := now + 300 })

/-- Embedding of `WebAccessServer::revoke`: clears the token slot. -/
def revoke (_st : Option TokenInfo) : Option TokenInfo :=
  none

/-- The token check performed by `handle_ws` on an `Auth` message:
exact value match and unexpired. -/
def token_valid (st : Option TokenInfo) (now : Int) (tok : String) : Bool :=
  match st with
  | some info => info.token == tok && decide (info.expires_at > now)
  | none => false

/-- Client → server protocol messages (`ClientMessage`). -/
inductive ClientMessage where
  | Auth (token : String)
  | Invoke (id : Nat) (command : String) (args : JsonValue)
  | Subscribe (event : String)
  | Unsubscribe (event : String)
deriving DecidableEq, Repr

/-- Server → client protocol messages (`ServerMessage`). -/
inductive ServerMessage where
  | AuthResult (success : Bool) (error : Option String)
  | InvokeResult (id : Nat) (result : Option JsonValue) (error : Option String)
  | Event (event : String) (payload : JsonValue)
deriving DecidableEq, Repr

/-- A WebSocket frame as `handle_ws` sees it: a text frame carrying the
outcome of `serde_json::from_str::<ClientMessage>` (`none` models a
parse failure), or any non-text frame (binary, ping, pong, close). -/
inductive WsFrame where
  | text (parsed : Option ClientMessage)
  | nonText
deriving DecidableEq, Repr

/-- Outcome of `receiver.next()` while awaiting the first message. -/
inductive StreamOutcome where
  | streamEnd
  | recvError
  | frame (f : WsFrame)
deriving DecidableEq, Repr

/-- The authentication handshake timeout of `handle_ws` in seconds. -/
def AUTH_TIMEOUT_SECS : Nat := 10

/-- Models `tokio::time::timeout(Duration::from_secs(10), receiver.next())`:
the stream outcome is delivered only if it occurs strictly before the
timer fires; `none` (no outcome ever, or one at or after 10 seconds)
means the timer elapsed. -/
def auth_wait (arrival : Option (Nat × StreamOutcome)) : Option StreamOutcome :=
  match arrival with
  | none => none
  | some (t, ev) => if t < AUTH_TIMEOUT_SECS then some ev else none

/-- The authentication phase of `handle_ws`: given the token slot, the
current instant and the (timed-out) first receive outcome, produce the
frames sent during the handshake and whether the connection becomes
authenticated.  Mirrors the `match auth_timeout.await` block: only a
text frame that parses to `Auth` with a valid token authenticates; any
other text frame gets a single failure `AuthResult`; everything else
(timeout, stream end, receive error, non-text frame) gets no response. -/
def auth_phase (st : Option TokenInfo) (now : Int) (first : Option StreamOutcome) :
    List ServerMessage × Bool :=
  match first with
  | some (.frame (.text (some (.Auth token)))) =>
    if token_valid st now token then
      ([.AuthResult true none], true)
    else
      ([.AuthResult false (some "Invalid or expired token")], false)
  | some (.frame (.text _)) =>
    ([.AuthResult false (some "First message must be Auth")], false)
  | _ => ([], false)

/-- Observable outcome of the `handle_ws` handshake: the frames sent,
whether the `Authenticated` phase (client gauge increment plus the main
receive loop) is entered, and the resulting gauge increment.  The source
returns before `connected_clients.fetch_add(1)` whenever `authenticated`
is false. -/
structure WsAuthOutcome where
  auth_frames : List ServerMessage
  authenticated : Bool
  gauge_delta : Nat
deriving DecidableEq, Repr

/-- The handshake prefix of `handle_ws` driven by the first arrival. -/
def handle_ws_auth (st : Option TokenInfo) (now : Int)
    (arrival : Option (Nat × StreamOutcome)) : WsAuthOutcome :=
  let r := auth_phase st now (auth_wait arrival)
  { auth_frames := r.1, authenticated := r.2,
    gauge_delta := if r.2 then 1 else 0 }

/-- One step of the authenticated main loop of `handle_ws`, restricted
to its effect on the subscription set: `Subscribe` inserts, `Unsubscribe`
removes, duplicate `Auth` is ignored, `Invoke` spawns a dispatch task
and leaves the subscriptions unchanged. -/
def main_loop_step (subs : List String) (msg : ClientMessage) : List String :=
  match msg with
  | .Auth _ => subs
  | .Invoke _ _ _ => subs
  | .Subscribe event => if subs.contains event then subs else subs ++ [event]
  | .Unsubscribe event => subs.filter (fun e => e != event)

/-- Split a character list on a separator character; auxiliary for the
spec-side notion of path components. -/
def splitOnChar (sep : Char) : List Char → List (List Char)
  | [] => [[]]
  | c :: rest =>
    let r := splitOnChar sep rest
    if c == sep then
      [] :: r
    else
      match r with
      | [] => [[c]]
      | g :: gs => (c :: g) :: gs

/-- Spec-side definition, following the specification's words: a file
path contains a parent-directory traversal segment iff one of its
`/`-separated components is exactly `..`.  Used to compare the
specified rejection criterion with the implemented one. -/
def hasParentTraversalSegment (s : String) : Bool :=
  (splitOnChar '/' s.data).any (fun c => c == ['.', '.'])

/-- Spec-side predicate for the pruning claim: the stored activity list
of `file_path` holds no entry whose timestamp parses to a moment
`FILE_ACTIVITY_TTL_SECS` or more seconds before `now`. -/
def stale_free (parse : String → Option Int) (now : Int)
    (activities : List (String × List FileActivity)) (file_path : String) : Prop :=
  ∀ es, mapGet activities file_path = some es →
    ∀ e ∈ es, ∀ ts, parse e.timestamp = some ts → now - ts < FILE_ACTIVITY_TTL_SECS

/-- The suffix of the last `max` elements of a list (proof-side normal
form of the ring-buffer contents). -/
def lastN {α : Type} (max : Nat) (l : List α) : List α :=
  l.drop (l.length - max)

theorem length_lastN {α : Type} (max : Nat) (l : List α) :
    (lastN max l).length = min l.length max := by
  simp [lastN]
  omega

theorem ring_append_eq_lastN {α : Type} (max : Nat) (l : List α) (a : α) :
    ring_append max l a = lastN max (l ++ [a]) := by
  by_cases h : (l ++ [a]).length > max
  · simp only [ring_append, lastN, if_pos h]
  · simp only [ring_append, lastN, if_neg h]
    rw [show (l ++ [a]).length - max = 0 by omega, List.drop_zero]

theorem length_ring_append_le {α : Type} (max : Nat) (l : List α) (a : α) :
    (ring_append max l a).length ≤ max := by
  rw [ring_append_eq_lastN, length_lastN]
  omega

theorem lastN_append_absorb {α : Type} (max : Nat) (l₁ l₂ : List α) :
    lastN max (lastN max l₁ ++ l₂) = lastN max (l₁ ++ l₂) := by
  unfold lastN
  rcases le_or_lt max l₂.length with h | h
  · rw [show (l₁.drop (l₁.length - max) ++ l₂).length - max
        = (l₁.drop (l₁.length - max)).length + (l₂.length - max) by
          simp only [List.length_append, List.length_drop]; omega]
    rw [show (l₁ ++ l₂).length - max = l₁.length + (l₂.length - max) by
          simp only [List.length_append]; omega]
    rw [List.drop_append, List.drop_append]
  · rw [List.drop_append_of_le_length (by simp only [List.length_append, List.length_drop]; omega),
        List.drop_append_of_le_length (by simp only [List.length_append]; omega),
        List.drop_drop]
    congr 2
    simp only [List.length_append, List.length_drop]
    omega

theorem lastN_of_length_le {α : Type} (max : Nat) (l : List α) (h : l.length ≤ max) :
    lastN max l = l := by
  unfold lastN
  rw [show l.length - max = 0 by omega, List.drop_zero]

theorem run_broadcasts_length_le (inputs : List (String × String × BroadcastRequest)) :
    ∀ hub : IntelHub, hub.messages.length ≤ MAX_MESSAGES →
      (run_broadcasts inputs hub).messages.length ≤ MAX_MESSAGES := by
  induction inputs with
  | nil => intro hub h; exact h
  | cons i is ih =>
    intro hub h
    show (run_broadcasts is (add_broadcast i.1 i.2.1 hub i.2.2).2).messages.length ≤ MAX_MESSAGES
    apply ih
    unfold add_broadcast
    cases hv : validate_broadcast i.2.2 with
    | error e => simpa using h
    | ok u => simpa using length_ring_append_le MAX_MESSAGES hub.messages _

theorem run_scratchpads_length_le (inputs : List (String × String × ScratchpadWriteRequest)) :
    ∀ hub : IntelHub, hub.scratchpad.length ≤ MAX_SCRATCHPAD →
      (run_scratchpads inputs hub).scratchpad.length ≤ MAX_SCRATCHPAD := by
  induction inputs with
  | nil => intro hub h; exact h
  | cons i is ih =>
    intro hub h
    show (run_scratchpads is (write_scratchpad i.1 i.2.1 hub i.2.2).2).scratchpad.length
        ≤ MAX_SCRATCHPAD
    apply ih
    unfold write_scratchpad
    cases hv : validate_scratchpad i.2.2 with
    | error e => simpa using h
    | ok u => simpa using length_ring_append_le MAX_SCRATCHPAD hub.scratchpad _

theorem run_broadcasts_messages_eq (inputs : List (String × String × BroadcastRequest)) :
    ∀ hub : IntelHub, hub.messages.length ≤ MAX_MESSAGES →
      (∀ i ∈ inputs, validate_broadcast i.2.2 = .ok ()) →
      (run_broadcasts inputs hub).messages
        = lastN MAX_MESSAGES (hub.messages ++ inputs.map mkBroadcastMsg) := by
  induction inputs with
  | nil =>
    intro hub h _
    simp only [run_broadcasts, List.foldl_nil, List.map_nil, List.append_nil]
    exact (lastN_of_length_le _ _ h).symm
  | cons i is ih =>
    intro hub h hv
    show (run_broadcasts is (add_broadcast i.1 i.2.1 hub i.2.2).2).messages = _
    have hvi : validate_broadcast i.2.2 = .ok () := hv i (List.mem_cons_self i is)
    have hstep : (add_broadcast i.1 i.2.1 hub i.2.2).2
        = { hub with messages := ring_append MAX_MESSAGES hub.messages (mkBroadcastMsg i) } := by
      unfold add_broadcast
      rw [hvi]
      rfl
    rw [hstep, ih _ (by simpa using length_ring_append_le MAX_MESSAGES hub.messages _)
        (fun j hj => hv j (List.mem_cons_of_mem i hj))]
    show lastN MAX_MESSAGES (ring_append MAX_MESSAGES hub.messages (mkBroadcastMsg i)
        ++ is.map mkBroadcastMsg) = _
    rw [ring_append_eq_lastN, lastN_append_absorb]
    simp

theorem mem_dedupAdjacent : ∀ (l : List Nat) (a : Nat), a ∈ dedupAdjacent l ↔ a ∈ l
  | [], a => by simp [dedupAdjacent]
  | [b], a => by simp [dedupAdjacent]
  | b :: c :: rest, a => by
    by_cases h : b = c
    · subst h
      rw [show dedupAdjacent (b :: b :: rest) = dedupAdjacent (b :: rest) from by
        simp [dedupAdjacent]]
      rw [mem_dedupAdjacent (b :: rest) a]
      simp [List.mem_cons]
    · rw [show dedupAdjacent (b :: c :: rest) = b :: dedupAdjacent (c :: rest) from by
        simp [dedupAdjacent, h]]
      simp [List.mem_cons, mem_dedupAdjacent (c :: rest) a]

theorem pairwise_lt_dedupAdjacent : ∀ l : List Nat, l.Pairwise (· ≤ ·) →
    (dedupAdjacent l).Pairwise (· < ·)
  | [], _ => by simp [dedupAdjacent]
  | [b], _ => by simp [dedupAdjacent]
  | b :: c :: rest, h => by
    have hbc : b ≤ c := (List.pairwise_cons.mp h).1 c (List.mem_cons_self c rest)
    have htail : (c :: rest).Pairwise (· ≤ ·) := (List.pairwise_cons.mp h).2
    by_cases hbc' : b = c
    · simpa [dedupAdjacent, hbc'] using pairwise_lt_dedupAdjacent (c :: rest) htail
    · simp only [dedupAdjacent, if_neg hbc']
      refine List.pairwise_cons.mpr ⟨?_, pairwise_lt_dedupAdjacent (c :: rest) htail⟩
      intro x hx
      have hx' : x ∈ c :: rest := (mem_dedupAdjacent _ x).mp hx
      have hblt : b < c := lt_of_le_of_ne hbc hbc'
      rcases List.mem_cons.mp hx' with rfl | hxr
      · exact hblt
      · exact lt_of_lt_of_le hblt ((List.pairwise_cons.mp htail).1 x hxr)

theorem nodup_dedupAdjacent (l : List Nat) (h : l.Pairwise (· ≤ ·)) :
    (dedupAdjacent l).Nodup :=
  (pairwise_lt_dedupAdjacent l h).imp (fun hlt => ne_of_lt hlt)

theorem sorted_dedupAdjacent (l : List Nat) (h : l.Pairwise (· ≤ ·)) :
    (dedupAdjacent l).Pairwise (· ≤ ·) :=
  (pairwise_lt_dedupAdjacent l h).imp (fun hlt => le_of_lt hlt)

theorem toFinset_dedupAdjacent (l : List Nat) :
    (dedupAdjacent l).toFinset = l.toFinset :=
  List.toFinset.ext (fun x => mem_dedupAdjacent l x)

theorem length_dedupAdjacent_eq_card (l : List Nat) (h : l.Pairwise (· ≤ ·)) :
    (dedupAdjacent l).length = l.toFinset.card :=
  (List.toFinset_card_of_nodup (nodup_dedupAdjacent l h)).symm.trans
    (congrArg Finset.card (toFinset_dedupAdjacent l))

theorem detect_conflict_eq (p : String) (es : List FileActivity) :
    detect_conflict p es
      = (if (dedupAdjacent ((es.map (fun e => e.session_id)).insertionSort (· ≤ ·))).length > 1
         then some { file_path := p,
                     sessions :=
                       dedupAdjacent ((es.map (fun e => e.session_id)).insertionSort (· ≤ ·)),
                     actions := es }
         else none) := rfl

theorem sessions_card_eq (es : List FileActivity) :
    (dedupAdjacent ((es.map (fun e => e.session_id)).insertionSort (· ≤ ·))).length
      = (es.map (fun e => e.session_id)).toFinset.card := by
  rw [length_dedupAdjacent_eq_card _ (List.sorted_insertionSort (· ≤ ·) _)]
  exact congrArg Finset.card
    (List.toFinset_eq_of_perm _ _ (List.perm_insertionSort (· ≤ ·) _))

/-- C1: the conflict computation for a file path collects the session
ids of all retained activity entries for that path, sorts them and
deduplicates them, and reports a conflict iff the deduplicated count
(the number of distinct session ids) exceeds 1; reports from a single
session never yield a conflict, and the sessions list of every returned
`FileConflict` is sorted and duplicate-free. -/
theorem claim_C1_conflict_dedup :
    (∀ (p : String) (es : List FileActivity) (c : FileConflict),
        detect_conflict p es = some c →
        c.sessions.Pairwise (· ≤ ·) ∧ c.sessions.Nodup ∧ 1 < c.sessions.length
        ∧ c.sessions.toFinset = (es.map (fun e => e.session_id)).toFinset
        ∧ c.file_path = p ∧ c.actions = es)
  ∧ (∀ (p : String) (es : List FileActivity),
        (detect_conflict p es).isSome
          ↔ 1 < (es.map (fun e => e.session_id)).toFinset.card)
  ∧ (∀ (p : String) (es : List FileActivity) (s : Nat),
        (∀ e ∈ es, e.session_id = s) → detect_conflict p es = none) := by
  have hcard : ∀ es : List FileActivity,
      (dedupAdjacent ((es.map (fun e => e.session_id)).insertionSort (· ≤ ·))).length
        = (es.map (fun e => e.session_id)).toFinset.card := sessions_card_eq
  refine ⟨?_, ?_, ?_⟩
  · intro p es c hc
    rw [detect_conflict_eq] at hc
    by_cases hlen :
        (dedupAdjacent ((es.map (fun e => e.session_id)).insertionSort (· ≤ ·))).length > 1
    · rw [if_pos hlen] at hc
      cases hc
      refine ⟨sorted_dedupAdjacent _ (List.sorted_insertionSort (· ≤ ·) _),
              nodup_dedupAdjacent _ (List.sorted_insertionSort (· ≤ ·) _),
              hlen, ?_, rfl, rfl⟩
      rw [toFinset_dedupAdjacent]
      exact List.toFinset_eq_of_perm _ _ (List.perm_insertionSort (· ≤ ·) _)
    · rw [if_neg hlen] at hc
      exact absurd hc (by simp)
  · intro p es
    rw [detect_conflict_eq, ← hcard es]
    by_cases hlen :
        (dedupAdjacent ((es.map (fun e => e.session_id)).insertionSort (· ≤ ·))).length > 1
    · rw [if_pos hlen]
      simp [hlen]
    · rw [if_neg hlen]
      simp [hlen]
  · intro p es s hs
    rw [detect_conflict_eq, if_neg]
    rw [hcard es]
    have hsub : (es.map (fun e => e.session_id)).toFinset ⊆ {s} := by
      intro x hx
      rw [List.mem_toFinset, List.mem_map] at hx
      obtain ⟨e, he, rfl⟩ := hx
      simp [hs e he]
    have := Finset.card_le_card hsub
    simp only [Finset.card_singleton] at this
    omega

/-- Witness for C1 at concrete inputs: two sessions on one path yield a
sorted, duplicate-free conflict, and repeated reports from a single
session yield none. -/
theorem claim_C1_conflict_dedup_witness :
    (({ file_path := "/a.ts", sessions := [1, 2],
        actions := [{ session_id := 1, file_path := "/a.ts", action := "editing",
                      timestamp := "t1" },
                    { session_id := 2, file_path := "/a.ts", action := "editing",
                      timestamp := "t2" }] } : FileConflict).sessions.Pairwise (· ≤ ·)
      ∧ ([1, 2] : List Nat).Nodup ∧ 1 < ([1, 2] : List Nat).length
      ∧ ([1, 2] : List Nat).toFinset
          = (([{ session_id := 1, file_path := "/a.ts", action := "editing",
                 timestamp := "t1" },
               { session_id := 2, file_path := "/a.ts", action := "editing",
                 timestamp := "t2" }] : List FileActivity).map
              (fun e => e.session_id)).toFinset
      ∧ ("/a.ts" : String) = "/a.ts"
      ∧ ([{ session_id := 1, file_path := "/a.ts", action := "editing",
            timestamp := "t1" },
          { session_id := 2, file_path := "/a.ts", action := "editing",
            timestamp := "t2" }] : List FileActivity)
          = [{ session_id := 1, file_path := "/a.ts", action := "editing",
               timestamp := "t1" },
             { session_id := 2, file_path := "/a.ts", action := "editing",
               timestamp := "t2" }])
  ∧ detect_conflict "/a.ts"
      [{ session_id := 1, file_path := "/a.ts", action := "editing", timestamp := "t1" },
       { session_id := 1, file_path := "/a.ts", action := "editing", timestamp := "t2" },
       { session_id := 1, file_path := "/a.ts", action := "editing", timestamp := "t3" }]
      = none :=
  ⟨claim_C1_conflict_dedup.1 "/a.ts" _ _ rfl,
   claim_C1_conflict_dedup.2.2 "/a.ts" _ 1 (by decide)⟩

/-- C2: after any sequence of `add_broadcast` calls from a state within
bounds the message store holds at most 200 messages, and likewise the
scratchpad holds at most 50 entries after any sequence of
`write_scratchpad` calls; eviction is strictly FIFO, so 250 successful
broadcasts starting from a fresh hub leave exactly the 200 most recent
messages in insertion order and none of the first 50. -/
theorem claim_C2_ring_buffer_bounds :
    (∀ (inputs : List (String × String × BroadcastRequest)) (hub : IntelHub),
        hub.messages.length ≤ MAX_MESSAGES →
        (run_broadcasts inputs hub).messages.length ≤ MAX_MESSAGES)
  ∧ (∀ (inputs : List (String × String × ScratchpadWriteRequest)) (hub : IntelHub),
        hub.scratchpad.length ≤ MAX_SCRATCHPAD →
        (run_scratchpads inputs hub).scratchpad.length ≤ MAX_SCRATCHPAD)
  ∧ (∀ inputs : List (String × String × BroadcastRequest),
        inputs.length = 250 →
        (∀ i ∈ inputs, validate_broadcast i.2.2 = .ok ()) →
        (run_broadcasts inputs IntelHub.new).messages = (inputs.map mkBroadcastMsg).drop 50
        ∧ (run_broadcasts inputs IntelHub.new).messages.length = 200
        ∧ ((inputs.map mkBroadcastMsg).Nodup →
             ∀ m ∈ (inputs.map mkBroadcastMsg).take 50,
               m ∉ (run_broadcasts inputs IntelHub.new).messages)) := by
  refine ⟨run_broadcasts_length_le, run_scratchpads_length_le, ?_⟩
  intro inputs hlen hv
  have hmsgs : (run_broadcasts inputs IntelHub.new).messages
      = (inputs.map mkBroadcastMsg).drop 50 := by
    rw [run_broadcasts_messages_eq inputs IntelHub.new (by simp [IntelHub.new]) hv]
    show lastN MAX_MESSAGES ([] ++ inputs.map mkBroadcastMsg) = _
    rw [List.nil_append]
    unfold lastN
    have hl : (inputs.map mkBroadcastMsg).length - MAX_MESSAGES = 50 := by
      rw [List.length_map, hlen, MAX_MESSAGES]
    rw [hl]
  refine ⟨hmsgs, ?_, ?_⟩
  · rw [hmsgs, List.length_drop, List.length_map, hlen]
  · intro hnd m hm
    rw [hmsgs]
    exact fun hmem => List.disjoint_take_drop hnd (le_refl 50) hm hmem

/-- Witness for C2: the empty call sequence respects both bounds, and a
concrete sequence of 250 valid broadcast inputs leaves exactly the last
200 constructed messages. -/
theorem claim_C2_ring_buffer_bounds_witness :
    (run_broadcasts [] IntelHub.new).messages.length ≤ MAX_MESSAGES
  ∧ (run_scratchpads [] IntelHub.new).scratchpad.length ≤ MAX_SCRATCHPAD
  ∧ (run_broadcasts (List.replicate 250 ("id0", "ts0",
        ({ session_id := 1, instance_id := "i", category := "info",
           message := "hello", metadata := none } : BroadcastRequest))) IntelHub.new).messages
      = ((List.replicate 250 ("id0", "ts0",
          ({ session_id := 1, instance_id := "i", category := "info",
             message := "hello", metadata := none } : BroadcastRequest))).map
            mkBroadcastMsg).drop 50 :=
  ⟨claim_C2_ring_buffer_bounds.1 [] IntelHub.new (by decide),
   claim_C2_ring_buffer_bounds.2.1 [] IntelHub.new (by decide),
   (claim_C2_ring_buffer_bounds.2.2 _ (List.length_replicate 250 _)
      (fun i hi => by rw [List.eq_of_mem_replicate hi]; rfl)).1⟩

/-- C5: `get_messages_for` returns exactly the stored broadcast
messages whose session id differs from the caller's, in insertion order
(a sublist of the store, with multiplicities preserved); it never
returns a message of the caller's own session, and being a read-only
function of the hub it does not modify the message store. -/
theorem claim_C5_echo_suppression :
    ∀ (hub : IntelHub) (s : Nat),
      (∀ m ∈ get_messages_for hub s, m.session_id ≠ s)
      ∧ (get_messages_for hub s).Sublist hub.messages
      ∧ (∀ m : BroadcastMessage, m.session_id ≠ s →
           (get_messages_for hub s).count m = hub.messages.count m)
      ∧ (∀ m : BroadcastMessage, m ∈ get_messages_for hub s
           ↔ m ∈ hub.messages ∧ m.session_id ≠ s) := by
  intro hub s
  refine ⟨?_, List.filter_sublist _, ?_, ?_⟩
  · intro m hm
    simpa using List.of_mem_filter hm
  · intro m hm
    exact List.count_filter (by simpa using hm)
  · intro m
    rw [get_messages_for, List.mem_filter]
    simp

/-- Witness for C5 at a concrete two-message store and session 2. -/
theorem claim_C5_echo_suppression_witness :
    (get_messages_for
        { messages :=
            [{ id := "m1", session_id := 1, instance_id := "i", category := "info",
               message := "x", metadata := none, timestamp := "t" },
             { id := "m2", session_id := 2, instance_id := "i", category := "info",
               message := "y", metadata := none, timestamp := "t" }],
          file_activities := [], scratchpad := [] } 2).count
        { id := "m1", session_id := 1, instance_id := "i", category := "info",
          message := "x", metadata := none, timestamp := "t" }
      = ({ messages :=
            [{ id := "m1", session_id := 1, instance_id := "i", category := "info",
               message := "x", metadata := none, timestamp := "t" },
             { id := "m2", session_id := 2, instance_id := "i", category := "info",
               message := "y", metadata := none, timestamp := "t" }],
           file_activities := [], scratchpad := [] } : IntelHub).messages.count
        { id := "m1", session_id := 1, instance_id := "i", category := "info",
          message := "x", metadata := none, timestamp := "t" } :=
  (claim_C5_echo_suppression _ 2).2.2.1 _ (by decide)

/-- C4: reporting the traversal path results in a `file_path`
validation error and leaves the hub untouched; more generally every
validation failure of `report_file`, `add_broadcast` or
`write_scratchpad` leaves all stores unchanged, and every validation
error carries a nonempty field name and a nonempty reason. -/
theorem claim_C4_validation_leaves_stores_unchanged :
    (∀ (parse : String → Option Int) (now : Int) (nowStr : String) (hub : IntelHub)
        (sid : Nat) (inst : String),
        report_file parse now nowStr hub
          { session_id := sid, instance_id := inst,
            file_path := "../secrets.env", action := "editing" }
          = (.error { field := "file_path", message := "path traversal not allowed" }, hub))
  ∧ (∀ parse now nowStr hub req e h2,
        report_file parse now nowStr hub req = (.error e, h2) → h2 = hub)
  ∧ (∀ fid ts hub req e h2, add_broadcast fid ts hub req = (.error e, h2) → h2 = hub)
  ∧ (∀ fid ts hub req e h2, write_scratchpad fid ts hub req = (.error e, h2) → h2 = hub)
  ∧ (∀ req e, validate_file_activity req = .error e → e.field ≠ "" ∧ e.message ≠ "")
  ∧ (∀ req e, validate_broadcast req = .error e → e.field ≠ "" ∧ e.message ≠ "")
  ∧ (∀ req e, validate_scratchpad req = .error e → e.field ≠ "" ∧ e.message ≠ "") := by
  refine ⟨?_, ?_, ?_, ?_, ?_, ?_, ?_⟩
  · intro parse now nowStr hub sid inst
    rfl
  · intro parse now nowStr hub req e h2 h
    unfold report_file at h
    split at h
    · cases h; rfl
    · simp at h
  · intro fid ts hub req e h2 h
    unfold add_broadcast at h
    split at h
    · cases h; rfl
    · simp at h
  · intro fid ts hub req e h2 h
    unfold write_scratchpad at h
    split at h
    · cases h; rfl
    · simp at h
  · intro req e h
    unfold validate_file_activity at h
    split at h
    · cases h; exact ⟨by decide, by decide⟩
    · split at h
      · cases h; exact ⟨by decide, by decide⟩
      · split at h
        · cases h; exact ⟨by decide, by decide⟩
        · cases h
  · intro req e h
    unfold validate_broadcast at h
    split at h
    · cases h; exact ⟨by decide, by decide⟩
    · split at h
      · cases h; exact ⟨by decide, by decide⟩
      · cases h
  · intro req e h
    unfold validate_scratchpad at h
    split at h
    · cases h; exact ⟨by decide, by decide⟩
    · split at h
      · cases h; exact ⟨by decide, by decide⟩
      · split at h
        · cases h; exact ⟨by decide, by decide⟩
        · cases h

/-- Witness for C4 at a concrete traversal request and a concrete
invalid-category broadcast request. -/
theorem claim_C4_validation_leaves_stores_unchanged_witness :
    report_file (fun _ => none) 0 "t" IntelHub.new
        { session_id := 7, instance_id := "i",
          file_path := "../secrets.env", action := "editing" }
      = (.error { field := "file_path", message := "path traversal not allowed" },
         IntelHub.new)
  ∧ ({ field := "category",
       message := "must be one of [\"discovery\", \"warning\", \"knowledge\", \"info\"]"
       } : IntelValidationError).field ≠ ""
  ∧ ({ field := "category",
       message := "must be one of [\"discovery\", \"warning\", \"knowledge\", \"info\"]"
       } : IntelValidationError).message ≠ "" :=
  ⟨claim_C4_validation_leaves_stores_unchanged.1 (fun _ => none) 0 "t" IntelHub.new 7 "i",
   claim_C4_validation_leaves_stores_unchanged.2.2.2.2.2.1
     { session_id := 7, instance_id := "i", category := "bogus",
       message := "m", metadata := none }
     _ rfl⟩

/-- C10: any file path containing the two-character substring `..`
anywhere is rejected by `validate_file_activity` with a `file_path`
validation error (given a valid action and an in-range length), even
when the dots do not form a parent-directory segment: `a..b.txt` has no
`/`-separated component equal to `..` yet `report_file` rejects it and
stores nothing. -/
theorem claim_C10_double_dot_rejected :
    (∀ req : FileActivityRequest,
        FILE_ACTIONS.contains req.action = true →
        byteLen req.file_path ≤ MAX_FILE_PATH_LEN →
        containsSeq req.file_path ['.', '.'] = true →
        validate_file_activity req
          = .error { field := "file_path", message := "path traversal not allowed" })
  ∧ (∀ (parse : String → Option Int) (now : Int) (nowStr : String) (hub : IntelHub)
        (sid : Nat) (inst : String),
        report_file parse now nowStr hub
          { session_id := sid, instance_id := inst,
            file_path := "a..b.txt", action := "editing" }
          = (.error { field := "file_path", message := "path traversal not allowed" }, hub))
  ∧ hasParentTraversalSegment "a..b.txt" = false := by
  refine ⟨?_, ?_, by decide⟩
  · intro req hact hlen hdots
    unfold validate_file_activity
    rw [hact]
    rw [if_neg (by simp)]
    rw [if_neg (by omega)]
    rw [if_pos hdots]
  · intro parse now nowStr hub sid inst
    rfl

/-- Witness for C10 at the concrete request for `a..b.txt`. -/
theorem claim_C10_double_dot_rejected_witness :
    validate_file_activity
        { session_id := 3, instance_id := "i",
          file_path := "a..b.txt", action := "editing" }
      = .error { field := "file_path", message := "path traversal not allowed" } :=
  claim_C10_double_dot_rejected.1
    { session_id := 3, instance_id := "i", file_path := "a..b.txt", action := "editing" }
    (by decide) (by decide) (by decide)

/-- C3: at most one access token validates at any instant.  Issuing T2
after T1 overwrites the slot, so T1 stops validating while T2 validates
exactly until its absolute expiry 300 seconds (5 minutes) after
issuance; after `revoke` no token validates at all. -/
theorem claim_C3_token_single_validity :
    (∀ (t1 t2 : String) (n1 n2 now : Int) (st0 : Option TokenInfo),
        t1 ≠ t2 →
        token_valid (generate_token t2 n2 (generate_token t1 n1 st0).2).2 now t1 = false)
  ∧ (∀ (t2 : String) (n2 now : Int) (st : Option TokenInfo),
        now < n2 + 300 →
        token_valid (generate_token t2 n2 st).2 now t2 = true)
  ∧ (∀ (t2 : String) (n2 now : Int) (st : Option TokenInfo),
        n2 + 300 ≤ now →
        token_valid (generate_token t2 n2 st).2 now t2 = false)
  ∧ (∀ (st : Option TokenInfo) (now : Int) (t : String),
        token_valid (revoke st) now t = false) := by
  refine ⟨?_, ?_, ?_, ?_⟩
  · intro t1 t2 n1 n2 now st0 hne
    show (t2 == t1 && decide (n2 + 300 > now)) = false
    rw [beq_eq_false_iff_ne.mpr (Ne.symm hne), Bool.false_and]
  · intro t2 n2 now st h
    show (t2 == t2 && decide (n2 + 300 > now)) = true
    rw [beq_self_eq_true, decide_eq_true (by omega), Bool.true_and]
  · intro t2 n2 now st h
    show (t2 == t2 && decide (n2 + 300 > now)) = false
    rw [decide_eq_false (by omega), Bool.and_false]
  · intro st now t
    rfl

/-- Witness for C3 with concrete tokens and instants. -/
theorem claim_C3_token_single_validity_witness :
    token_valid (generate_token "T2" 0 (generate_token "T1" 0 none).2).2 10 "T1" = false
  ∧ token_valid (generate_token "T2" 0 none).2 10 "T2" = true
  ∧ token_valid (generate_token "T2" 0 none).2 300 "T2" = false
  ∧ token_valid (revoke (generate_token "T2" 0 none).2) 10 "T2" = false :=
  ⟨claim_C3_token_single_validity.1 "T1" "T2" 0 0 10 none (by decide),
   claim_C3_token_single_validity.2.1 "T2" 0 10 none (by decide),
   claim_C3_token_single_validity.2.2.1 "T2" 0 300 none (by decide),
   claim_C3_token_single_validity.2.2.2 _ 10 "T2"⟩

theorem detect_conflict_some (p : String) (es : List FileActivity) (c : FileConflict)
    (h : detect_conflict p es = some c) : c.file_path = p ∧ c.actions = es := by
  rw [detect_conflict_eq] at h
  split at h
  · cases h; exact ⟨rfl, rfl⟩
  · cases h

theorem mapGet_mapModify_self (m : List (String × List FileActivity)) (k : String)
    (f : List FileActivity → List FileActivity) :
    mapGet (mapModify m k f) k = (mapGet m k).map f := by
  induction m with
  | nil => rfl
  | cons p rest ih =>
    cases hb : (p.1 == k) with
    | true =>
      unfold mapGet mapModify
      rw [List.map_cons, if_pos hb,
          @List.find?_cons_of_pos _ (fun q => q.1 == k) (p.1, f p.2) _ hb,
          @List.find?_cons_of_pos _ (fun q => q.1 == k) p _ hb]
      rfl
    | false =>
      unfold mapGet mapModify
      rw [List.map_cons, if_neg (by simp [hb]),
          @List.find?_cons_of_neg _ (fun q => q.1 == k) p _ (by simp [hb]),
          @List.find?_cons_of_neg _ (fun q => q.1 == k) p _ (by simp [hb])]
      exact ih

theorem mapGet_append_single_of_none (m : List (String × List FileActivity)) (k : String)
    (es : List FileActivity) (h : mapGet m k = none) :
    mapGet (m ++ [(k, es)]) k = some es := by
  induction m with
  | nil =>
    rw [List.nil_append]
    unfold mapGet
    rw [@List.find?_cons_of_pos _ (fun q => q.1 == k) (k, es) _ (beq_self_eq_true k)]
    rfl
  | cons p rest ih =>
    cases hb : (p.1 == k) with
    | true =>
      exfalso
      unfold mapGet at h
      rw [@List.find?_cons_of_pos _ (fun q => q.1 == k) p _ hb] at h
      simp at h
    | false =>
      unfold mapGet at h ⊢
      rw [List.cons_append, @List.find?_cons_of_neg _ (fun q => q.1 == k) p _ (by simp [hb])]
      rw [@List.find?_cons_of_neg _ (fun q => q.1 == k) p _ (by simp [hb])] at h
      exact ih h

theorem mapGet_mapPush_self (m : List (String × List FileActivity)) (k : String)
    (a : FileActivity) :
    mapGet (mapPush m k a) k = some ((mapGet m k).getD [] ++ [a]) := by
  unfold mapPush
  by_cases h : (m.find? (fun p => p.1 == k)).isSome
  · rw [if_pos h, mapGet_mapModify_self]
    obtain ⟨p, hp⟩ := Option.isSome_iff_exists.mp h
    have : mapGet m k = some p.2 := by simp [mapGet, hp]
    rw [this]
    rfl
  · rw [if_neg h]
    have hnone : mapGet m k = none := by
      unfold mapGet
      rw [Option.not_isSome_iff_eq_none.mp h]
      rfl
    rw [mapGet_append_single_of_none m k [a] hnone, hnone]
    rfl

/-- C6: a successful `report_file` returns zero or one conflict records
concerning only the reported path; in the two-session scenario on
`/a.ts` (first report still within the TTL at the time of the second)
the second call returns exactly one conflict with sessions `[1, 2]`. -/
theorem claim_C6_report_file_conflicts :
    (∀ (parse : String → Option Int) (now : Int) (nowStr : String) (hub : IntelHub)
        (req : FileActivityRequest) (res : List FileConflict) (h2 : IntelHub),
        report_file parse now nowStr hub req = (.ok res, h2) →
        res.length ≤ 1 ∧ ∀ c ∈ res, c.file_path = req.file_path)
  ∧ (∀ (parse : String → Option Int) (t1 now1 now2 : Int) (ts1 ts2 inst1 inst2 : String),
        parse ts1 = some t1 → now2 - t1 < 300 →
        (report_file parse now2 ts2
            (report_file parse now1 ts1 IntelHub.new
              { session_id := 1, instance_id := inst1,
                file_path := "/a.ts", action := "editing" }).2
            { session_id := 2, instance_id := inst2,
              file_path := "/a.ts", action := "editing" }).1
          = .ok [{ file_path := "/a.ts", sessions := [1, 2],
                   actions := [{ session_id := 1, file_path := "/a.ts",
                                 action := "editing", timestamp := ts1 },
                               { session_id := 2, file_path := "/a.ts",
                                 action := "editing", timestamp := ts2 }] }]) := by
  constructor
  · intro parse now nowStr hub req res h2 h
    unfold report_file at h
    split at h
    · simp at h
    · injection h with hA hB
      injection hA with hres
      subst hres
      cases hm : mapGet
          (mapPush (prune_old_entries parse hub.file_activities req.file_path now)
            req.file_path
            { session_id := req.session_id, file_path := req.file_path,
              action := req.action, timestamp := nowStr })
          req.file_path with
      | none => simp [hm]
      | some entries =>
        simp only [hm]
        cases hd : detect_conflict req.file_path entries with
        | none => simp
        | some c =>
          refine ⟨by simp, ?_⟩
          intro c' hc'
          simp only [Option.toList_some, List.mem_singleton] at hc'
          subst hc'
          exact (detect_conflict_some _ _ _ hd).1
  · intro parse t1 now1 now2 ts1 ts2 inst1 inst2 hparse hrecent
    have hkeep : keepEntry parse now2
        { session_id := 1, file_path := "/a.ts", action := "editing",
          timestamp := ts1 } = true := by
      show (match parse ts1 with
            | some ts => decide (now2 - ts < FILE_ACTIVITY_TTL_SECS)
            | none => true) = true
      rw [hparse]
      exact decide_eq_true hrecent
    have hfilter : List.filter (keepEntry parse now2)
        [{ session_id := 1, file_path := "/a.ts", action := "editing",
           timestamp := ts1 }]
        = [{ session_id := 1, file_path := "/a.ts", action := "editing",
             timestamp := ts1 }] := by
      rw [List.filter_cons, if_pos hkeep, List.filter_nil]
    show Except.ok
        ((detect_conflict "/a.ts"
          (List.filter (keepEntry parse now2)
              [{ session_id := 1, file_path := "/a.ts", action := "editing",
                 timestamp := ts1 }]
            ++ [{ session_id := 2, file_path := "/a.ts", action := "editing",
                  timestamp := ts2 }])).toList)
      = _
    rw [hfilter]
    rfl

/-- Witness for C6: a first report on a fresh hub returns no conflict,
and the concrete two-session scenario returns exactly one conflict with
sessions `[1, 2]`. -/
theorem claim_C6_report_file_conflicts_witness :
    (([] : List FileConflict).length ≤ 1
      ∧ ∀ c ∈ ([] : List FileConflict),
          c.file_path
            = ({ session_id := 1, instance_id := "i", file_path := "/a.ts",
                 action := "editing" } : FileActivityRequest).file_path)
  ∧ (report_file (fun _ => some 0) 10 "B"
        (report_file (fun _ => some 0) 0 "A" IntelHub.new
          { session_id := 1, instance_id := "i",
            file_path := "/a.ts", action := "editing" }).2
        { session_id := 2, instance_id := "j",
          file_path := "/a.ts", action := "editing" }).1
      = .ok [{ file_path := "/a.ts", sessions := [1, 2],
               actions := [{ session_id := 1, file_path := "/a.ts",
                             action := "editing", timestamp := "A" },
                           { session_id := 2, file_path := "/a.ts",
                             action := "editing", timestamp := "B" }] }] :=
  ⟨claim_C6_report_file_conflicts.1 (fun _ => some 0) 0 "A" IntelHub.new
      { session_id := 1, instance_id := "i", file_path := "/a.ts", action := "editing" }
      []
      { messages := [],
        file_activities :=
          [("/a.ts", [{ session_id := 1, file_path := "/a.ts", action := "editing",
                        timestamp := "A" }])],
        scratchpad := [] }
      rfl,
   claim_C6_report_file_conflicts.2 (fun _ => some 0) 0 0 10 "A" "B" "i" "j"
     rfl (by decide)⟩

theorem keepEntry_false_of_stale (parse : String → Option Int) (now : Int)
    (e : FileActivity) (ts : Int) (hp : parse e.timestamp = some ts)
    (h : FILE_ACTIVITY_TTL_SECS ≤ now - ts) : keepEntry parse now e = false := by
  unfold keepEntry
  rw [hp]
  exact decide_eq_false (not_lt.mpr h)

theorem lt_of_keepEntry_true (parse : String → Option Int) (now : Int)
    (e : FileActivity) (ts : Int) (hk : keepEntry parse now e = true)
    (hts : parse e.timestamp = some ts) : now - ts < FILE_ACTIVITY_TTL_SECS := by
  unfold keepEntry at hk
  rw [hts] at hk
  exact of_decide_eq_true hk

/-- C7: an entry whose timestamp parses to more than 300 seconds before
now is dropped by the retention filter, hence removed by
`prune_old_entries` and excluded from every conflict computed by
`get_all_conflicts`, while an entry whose timestamp cannot be parsed is
kept by the filter and still counted toward conflicts. -/
theorem claim_C7_ttl_and_unparseable :
    (∀ (parse : String → Option Int) (now : Int) (e : FileActivity) (ts : Int),
        parse e.timestamp = some ts → 300 < now - ts →
        keepEntry parse now e = false
        ∧ (∀ es : List FileActivity, e ∉ es.filter (keepEntry parse now))
        ∧ (∀ (m : List (String × List FileActivity)) (fp : String)
              (es : List FileActivity),
             mapGet (prune_old_entries parse m fp now) fp = some es → e ∉ es)
        ∧ (∀ (hub : IntelHub) (c : FileConflict),
             c ∈ get_all_conflicts parse now hub → e ∉ c.actions))
  ∧ (∀ (parse : String → Option Int) (now : Int) (e : FileActivity),
        parse e.timestamp = none →
        keepEntry parse now e = true
        ∧ (∀ es : List FileActivity, e ∈ es → e ∈ es.filter (keepEntry parse now)))
  ∧ get_all_conflicts
      (fun s => if s == "T-OLD" then none else some 0) 0
      { messages := [],
        file_activities :=
          [("/a.ts", [{ session_id := 1, file_path := "/a.ts", action := "editing",
                        timestamp := "T-OLD" },
                      { session_id := 2, file_path := "/a.ts", action := "editing",
                        timestamp := "T-NEW" }])],
        scratchpad := [] }
      = [{ file_path := "/a.ts", sessions := [1, 2],
           actions := [{ session_id := 1, file_path := "/a.ts", action := "editing",
                         timestamp := "T-OLD" },
                       { session_id := 2, file_path := "/a.ts", action := "editing",
                         timestamp := "T-NEW" }] }] := by
  refine ⟨?_, ?_, rfl⟩
  · intro parse now e ts hp hold
    have hkf : keepEntry parse now e = false :=
      keepEntry_false_of_stale parse now e ts hp (le_of_lt hold)
    have hnf : ∀ es : List FileActivity, e ∉ es.filter (keepEntry parse now) := by
      intro es hmem
      have := List.of_mem_filter hmem
      rw [hkf] at this
      cases this
    refine ⟨hkf, hnf, ?_, ?_⟩
    · intro m fp es hes hmem
      rw [prune_old_entries, mapGet_mapModify_self] at hes
      cases hm : mapGet m fp with
      | none => rw [hm] at hes; cases hes
      | some es0 =>
        rw [hm] at hes
        injection hes with hes
        subst hes
        exact hnf es0 hmem
    · intro hub c hc hmem
      obtain ⟨q, hq, hd⟩ := List.mem_filterMap.mp hc
      have hact := (detect_conflict_some _ _ _ hd).2
      rw [hact] at hmem
      exact hnf q.2 hmem
  · intro parse now e hp
    have hkt : keepEntry parse now e = true := by
      unfold keepEntry
      rw [hp]
    exact ⟨hkt, fun es he => List.mem_filter.mpr ⟨he, hkt⟩⟩

/-- Witness for C7: a stale parseable entry is dropped by the filter
at a concrete clock, an unparseable entry is kept, and the closed
conflict computation above is part of the theorem itself. -/
theorem claim_C7_ttl_and_unparseable_witness :
    keepEntry (fun _ => some 0) 1000
        { session_id := 1, file_path := "/a.ts", action := "editing",
          timestamp := "X" } = false
  ∧ keepEntry (fun _ => none) 1000
        { session_id := 1, file_path := "/a.ts", action := "editing",
          timestamp := "X" } = true :=
  ⟨(claim_C7_ttl_and_unparseable.1 (fun _ => some 0) 1000
      { session_id := 1, file_path := "/a.ts", action := "editing", timestamp := "X" }
      0 rfl (by decide)).1,
   (claim_C7_ttl_and_unparseable.2.1 (fun _ => none) 1000
      { session_id := 1, file_path := "/a.ts", action := "editing", timestamp := "X" }
      rfl).1⟩

/-- Counterexample to C8: `get_all_conflicts` takes only a read lock
and does not modify the store, so after a sweep the store still holds a
parseable entry 1000 seconds old — the claim that no stale entry
remains stored for an accessed path after the sweep is false. -/
theorem claim_C8_counterexample :
    (fun _ : String => some (0 : Int)) "T0" = some 0
  ∧ (1000 : Int) - 0 > 300
  ∧ (get_all_conflicts_run (fun _ => some 0) 1000
       { messages := [],
         file_activities := [("/a.ts", [{ session_id := 1, file_path := "/a.ts",
                                          action := "editing", timestamp := "T0" }])],
         scratchpad := [] }).2
      = { messages := [],
          file_activities := [("/a.ts", [{ session_id := 1, file_path := "/a.ts",
                                           action := "editing", timestamp := "T0" }])],
          scratchpad := [] }
  ∧ ¬ stale_free (fun _ => some 0) 1000
      (get_all_conflicts_run (fun _ => some 0) 1000
        { messages := [],
          file_activities := [("/a.ts", [{ session_id := 1, file_path := "/a.ts",
                                           action := "editing", timestamp := "T0" }])],
          scratchpad := [] }).2.file_activities "/a.ts" := by
  refine ⟨rfl, by decide, rfl, ?_⟩
  intro hsf
  have := hsf
      [{ session_id := 1, file_path := "/a.ts", action := "editing", timestamp := "T0" }]
      rfl
      { session_id := 1, file_path := "/a.ts", action := "editing", timestamp := "T0" }
      (List.mem_singleton.mpr rfl) 0 rfl
  exact absurd this (by decide)

/-- C8 amended: a successful `report_file` leaves no stale parseable
entry stored for the reported path (given that the freshly stored
timestamp is itself recent), while `get_all_conflicts` performs no
mutation at all: it returns the hub unchanged and only filters its own
view of the entries. -/
theorem claim_C8_amended_report_prunes :
    (∀ (parse : String → Option Int) (now : Int) (nowStr : String) (hub : IntelHub)
        (req : FileActivityRequest) (res : List FileConflict) (h2 : IntelHub),
        (∀ t, parse nowStr = some t → now - t < 300) →
        report_file parse now nowStr hub req = (.ok res, h2) →
        stale_free parse now h2.file_activities req.file_path)
  ∧ (∀ (parse : String → Option Int) (now : Int) (hub : IntelHub),
        (get_all_conflicts_run parse now hub).2 = hub) := by
  constructor
  · intro parse now nowStr hub req res h2 hfresh h
    unfold report_file at h
    split at h
    · simp at h
    · injection h with hA hB
      subst hB
      intro es hes e he ts hts
      dsimp only at hes
      rw [mapGet_mapPush_self] at hes
      injection hes with hes
      subst hes
      rcases List.mem_append.mp he with hleft | hright
      · rw [prune_old_entries, mapGet_mapModify_self] at hleft
        cases hm : mapGet hub.file_activities req.file_path with
        | none => rw [hm] at hleft; cases hleft
        | some es0 =>
          rw [hm] at hleft
          have hk := List.of_mem_filter (by simpa using hleft)
          exact lt_of_keepEntry_true parse now e ts hk hts
      · have he2 : e = ⟨req.session_id, req.file_path, req.action, nowStr⟩ :=
          List.mem_singleton.mp hright
        subst he2
        exact hfresh ts hts
  · intro parse now hub
    rfl

/-- Witness for C8's amended theorem: a concrete successful report on a
fresh hub leaves the reported path stale-free, and a concrete sweep
returns the hub unchanged. -/
theorem claim_C8_amended_report_prunes_witness :
    stale_free (fun _ => some 0) 10
      ((report_file (fun _ => some 0) 10 "T" IntelHub.new
          { session_id := 1, instance_id := "i",
            file_path := "/a.ts", action := "editing" }).2).file_activities
      "/a.ts"
  ∧ (get_all_conflicts_run (fun _ => some 0) 10 IntelHub.new).2 = IntelHub.new :=
  ⟨claim_C8_amended_report_prunes.1 (fun _ => some 0) 10 "T" IntelHub.new
      { session_id := 1, instance_id := "i", file_path := "/a.ts", action := "editing" }
      []
      { messages := [],
        file_activities :=
          [("/a.ts", [{ session_id := 1, file_path := "/a.ts", action := "editing",
                        timestamp := "T" }])],
        scratchpad := [] }
      (fun t ht => by injection ht with ht; subst ht; decide)
      rfl,
   claim_C8_amended_report_prunes.2 (fun _ => some 0) 10 IntelHub.new⟩

/-- C9: a connection reaches the `Authenticated` state (gauge
incremented, main loop entered) exactly when its first stream outcome is
a text frame arriving strictly before the 10-second timeout that parses
to an `Auth` message with a valid token; a timely text frame that is not
a valid `Auth` gets exactly one failure `AuthResult` and no
authentication, and a timeout, stream end or receive error produces no
response frame at all and never authenticates. -/
theorem claim_C9_auth_gate :
    ∀ (st : Option TokenInfo) (now : Int) (arrival : Option (Nat × StreamOutcome)),
      ((handle_ws_auth st now arrival).authenticated = true
        ↔ ∃ t tok, arrival = some (t, .frame (.text (some (.Auth tok))))
            ∧ t < AUTH_TIMEOUT_SECS ∧ token_valid st now tok = true)
      ∧ ((handle_ws_auth st now arrival).gauge_delta
          = if (handle_ws_auth st now arrival).authenticated then 1 else 0)
      ∧ (∀ t p, arrival = some (t, .frame (.text p)) → t < AUTH_TIMEOUT_SECS →
           (∀ tok, p ≠ some (.Auth tok)) →
           (handle_ws_auth st now arrival).auth_frames
              = [.AuthResult false (some "First message must be Auth")]
            ∧ (handle_ws_auth st now arrival).authenticated = false)
      ∧ (∀ t tok, arrival = some (t, .frame (.text (some (.Auth tok)))) →
           t < AUTH_TIMEOUT_SECS → token_valid st now tok = false →
           (handle_ws_auth st now arrival).auth_frames
              = [.AuthResult false (some "Invalid or expired token")]
            ∧ (handle_ws_auth st now arrival).authenticated = false)
      ∧ ((arrival = none ∨ (∃ t ev, arrival = some (t, ev) ∧ AUTH_TIMEOUT_SECS ≤ t)
            ∨ (∃ t, arrival = some (t, .streamEnd))
            ∨ (∃ t, arrival = some (t, .recvError))) →
           (handle_ws_auth st now arrival).auth_frames = []
           ∧ (handle_ws_auth st now arrival).authenticated = false) := by
  intro st now arrival
  refine ⟨?_, ?_, ?_, ?_, ?_⟩
  · constructor
    · intro hauth
      match arrival with
      | none => simp [handle_ws_auth, auth_wait, auth_phase] at hauth
      | some (t, ev) =>
        by_cases ht : t < AUTH_TIMEOUT_SECS
        · match ev with
          | .streamEnd =>
            simp [handle_ws_auth, auth_wait, auth_phase, if_pos ht] at hauth
          | .recvError =>
            simp [handle_ws_auth, auth_wait, auth_phase, if_pos ht] at hauth
          | .frame .nonText =>
            simp [handle_ws_auth, auth_wait, auth_phase, if_pos ht] at hauth
          | .frame (.text none) =>
            simp [handle_ws_auth, auth_wait, auth_phase, if_pos ht] at hauth
          | .frame (.text (some (.Invoke i c a))) =>
            simp [handle_ws_auth, auth_wait, auth_phase, if_pos ht] at hauth
          | .frame (.text (some (.Subscribe e))) =>
            simp [handle_ws_auth, auth_wait, auth_phase, if_pos ht] at hauth
          | .frame (.text (some (.Unsubscribe e))) =>
            simp [handle_ws_auth, auth_wait, auth_phase, if_pos ht] at hauth
          | .frame (.text (some (.Auth tok))) =>
            refine ⟨t, tok, rfl, ht, ?_⟩
            by_cases hv : token_valid st now tok = true
            · exact hv
            · simp only [handle_ws_auth, auth_wait, auth_phase, if_pos ht] at hauth
              rw [if_neg hv] at hauth
              simp at hauth
        · simp [handle_ws_auth, auth_wait, auth_phase, if_neg ht] at hauth
    · rintro ⟨t, tok, rfl, ht, hv⟩
      simp [handle_ws_auth, auth_wait, auth_phase, if_pos ht, hv]
  · simp [handle_ws_auth]
  · rintro t p rfl ht hne
    match p with
    | none =>
      simp [handle_ws_auth, auth_wait, auth_phase, if_pos ht]
    | some (.Auth tok) => exact absurd rfl (hne tok)
    | some (.Invoke i c a) =>
      simp [handle_ws_auth, auth_wait, auth_phase, if_pos ht]
    | some (.Subscribe e) =>
      simp [handle_ws_auth, auth_wait, auth_phase, if_pos ht]
    | some (.Unsubscribe e) =>
      simp [handle_ws_auth, auth_wait, auth_phase, if_pos ht]
  · rintro t tok rfl ht hv
    simp [handle_ws_auth, auth_wait, auth_phase, if_pos ht, hv]
  · intro hcase
    rcases hcase with rfl | ⟨t, ev, rfl, ht⟩ | ⟨t, rfl⟩ | ⟨t, rfl⟩
    · simp [handle_ws_auth, auth_wait, auth_phase]
    · simp [handle_ws_auth, auth_wait, auth_phase, if_neg (not_lt.mpr ht)]
    · by_cases ht : t < AUTH_TIMEOUT_SECS
      · simp [handle_ws_auth, auth_wait, auth_phase, if_pos ht]
      · simp [handle_ws_auth, auth_wait, auth_phase, if_neg ht]
    · by_cases ht : t < AUTH_TIMEOUT_SECS
      · simp [handle_ws_auth, auth_wait, auth_phase, if_pos ht]
      · simp [handle_ws_auth, auth_wait, auth_phase, if_neg ht]

/-- Witness for C9: a timely valid `Auth` authenticates with gauge 1, a
timely non-Auth text frame yields one failure frame, and a connection
with no arrival (timeout) gets no frames and never authenticates. -/
theorem claim_C9_auth_gate_witness :
    (handle_ws_auth (some { token := "tok", expires_at := 100 }) 0
        (some (3, .frame (.text (some (.Auth "tok")))))).authenticated = true
  ∧ ((handle_ws_auth (some { token := "tok", expires_at := 100 }) 0
        (some (3, .frame (.text (some (.Subscribe "x")))))).auth_frames
      = [.AuthResult false (some "First message must be Auth")]
     ∧ (handle_ws_auth (some { token := "tok", expires_at := 100 }) 0
          (some (3, .frame (.text (some (.Subscribe "x")))))).authenticated = false)
  ∧ ((handle_ws_auth (some { token := "tok", expires_at := 100 }) 0 none).auth_frames = []
     ∧ (handle_ws_auth (some { token := "tok", expires_at := 100 }) 0
          none).authenticated = false) :=
  ⟨(claim_C9_auth_gate (some { token := "tok", expires_at := 100 }) 0
      (some (3, .frame (.text (some (.Auth "tok")))))).1.mpr
      ⟨3, "tok", rfl, by decide, by decide⟩,
   (claim_C9_auth_gate (some { token := "tok", expires_at := 100 }) 0
      (some (3, .frame (.text (some (.Subscribe "x")))))).2.2.1 3
      (some (.Subscribe "x")) rfl (by decide) (fun tok h => by cases h),
   (claim_C9_auth_gate (some { token := "tok", expires_at := 100 }) 0 none).2.2.2.2
      (Or.inl rfl)⟩
